import Mathlib

/-!
Verification development for the chat media route module
(Backend/chat_media_routes.py): audio transcription staging, file upload
with thumbnail and PDF-text derivation, and attachment deletion.

Filenames and message strings are modelled as lists of characters; the
filesystem is modelled as a set of (directory, filename) paths together
with the set of directories that have been created.  External collaborators
(the transcription service, the image capability, the PDF capability) are
modelled by their observable behaviours at the call sites of the module.
-/

namespace ChatMedia

/-- Filenames, identifiers, extensions and messages are lists of characters,
so that splitting on the last dot and substring search can be reasoned about
by induction. -/
abbrev FName := List Char

/-- Storage directories touched by the route module: the chat upload folder,
its thumbs subfolder, and the system temp directory used for staging. -/
inductive SDir
| chat
| thumbs
| tmp
deriving DecidableEq

/-- A path is a directory together with a filename inside it. -/
abbrev FPath := SDir × FName

/-- The filesystem capability as the routes see it: the set of existing
files and the set of directories created so far. -/
structure FS where
  files : Finset FPath
  dirs : Finset SDir
deriving DecidableEq

/-- Extension whitelist for audio transcription, from the module header. -/
def ALLOWED_AUDIO_EXTENSIONS : List FName :=
  ["m4a".data, "mp3".data, "wav".data, "webm".data, "ogg".data, "flac".data]

/-- Extension whitelist for images, from the module header. -/
def ALLOWED_IMAGE_EXTENSIONS : List FName :=
  ["jpg".data, "jpeg".data, "png".data, "gif".data, "webp".data, "heic".data]

/-- Extension whitelist for documents, from the module header. -/
def ALLOWED_DOCUMENT_EXTENSIONS : List FName :=
  ["pdf".data, "txt".data, "md".data]

/-- Union of image and document extensions, used by the upload and delete
routes (the python source takes the union of the two sets; the two lists are
disjoint, so list append models the union). -/
def ALLOWED_UPLOAD_EXTENSIONS : List FName :=
  ALLOWED_IMAGE_EXTENSIONS ++ ALLOWED_DOCUMENT_EXTENSIONS

/-- MAX_AUDIO_SIZE from the module: 25 * 1024 * 1024 bytes. -/
def MAX_AUDIO_SIZE : Nat := 25 * 1024 * 1024

/-- MAX_FILE_SIZE from the module: 20 * 1024 * 1024 bytes. -/
def MAX_FILE_SIZE : Nat := 20 * 1024 * 1024

/-- Boolean test that a character is not a dot. -/
def notDot (c : Char) : Bool := c != '.'

/-- Part of a filename after the last dot; models pythons
rsplit on a single dot, index 1 (meaningful when a dot is present). -/
def afterLastDot (s : FName) : FName :=
  (s.reverse.takeWhile notDot).reverse

/-- Lowercased extension after the last dot, as computed at every
rsplit-then-lower site of the module. -/
def lowerExt (s : FName) : FName := (afterLastDot s).map Char.toLower

/-- Embeds allowed_file from the module: the filename contains a dot and its
lowercased last extension is in the allowed set. -/
def allowed_file (filename : FName) (allowed : List FName) : Bool :=
  filename.contains '.' && allowed.contains (lowerExt filename)

/-- Extension of a filename, or empty when the filename has no dot; models
the conditional rsplit expression used by get_file_type and upload_file. -/
def extOrEmpty (s : FName) : FName :=
  if s.contains '.' then lowerExt s else []

/-- Embeds get_file_type from the module. -/
def get_file_type (filename : FName) : FName :=
  let ext := extOrEmpty filename
  if ALLOWED_AUDIO_EXTENSIONS.contains ext then "audio".data
  else if ALLOWED_IMAGE_EXTENSIONS.contains ext then "image".data
  else if ALLOWED_DOCUMENT_EXTENSIONS.contains ext then "document".data
  else "unknown".data

/-- Characters kept by the werkzeug sanitiser: ascii letters, digits,
underscore, dot, dash. -/
def isSafeChar (c : Char) : Bool :=
  c.isAlpha || c.isDigit || c = '_' || c = '.' || c = '-'

/-- Characters stripped from both ends by the werkzeug sanitiser. -/
def isDotOrUnderscore (c : Char) : Bool := c = '.' || c = '_'

/-- Python str.split with no argument: split on whitespace runs and drop
empty words; auxiliary accumulator holds the current word reversed. -/
def pySplitAux : FName → FName → List FName
| [], acc => if acc = [] then [] else [acc.reverse]
| c :: t, acc =>
  if c.isWhitespace then
    if acc = [] then pySplitAux t [] else acc.reverse :: pySplitAux t []
  else pySplitAux t (c :: acc)

/-- Python str.split with no argument. -/
def pySplit (l : FName) : List FName := pySplitAux l []

/-- Models werkzeug secure_filename on a posix system: NFKD normalisation
followed by ascii-encode-ignore is modelled as dropping non-ascii characters
(the two agree on ascii input), the path separator is replaced by a space,
whitespace-separated words are joined with underscores, characters outside
the safe set are removed, and leading and trailing dots and underscores are
stripped.  The windows device-name special case does not apply on posix. -/
def secure_filename (s : FName) : FName :=
  let ascii := s.filter (fun c => c.toNat < 128)
  let nosep := ascii.map (fun c => if c = '/' then ' ' else c)
  let joined := List.intercalate ['_'] (pySplit nosep)
  let kept := joined.filter isSafeChar
  ((kept.dropWhile isDotOrUnderscore).reverse.dropWhile isDotOrUnderscore).reverse

/-- Separator used when an error message enumerates an extension set. -/
def commaSep : FName := ", ".data

/-- Python str.join with a comma-space separator. -/
def joinComma (l : List FName) : FName := List.intercalate commaSep l

/-- Boolean substring search: the pattern occurs contiguously in the text. -/
def occursIn (pat : FName) : FName → Bool
| [] => pat.isPrefixOf []
| c :: t => pat.isPrefixOf (c :: t) || occursIn pat t

/-- Message for a request without an audio part. -/
def MSG_NO_AUDIO : FName := "Aucun fichier audio fourni".data

/-- Message for an empty filename, shared by both routes. -/
def MSG_EMPTY_NAME : FName := "Nom de fichier vide".data

/-- Message for an unsupported audio format; enumerates the accepted set. -/
def MSG_AUDIO_FORMAT : FName :=
  ("Format audio non supporté. Formats acceptés: ".data) ++
    joinComma ALLOWED_AUDIO_EXTENSIONS

/-- Message for an oversize audio payload. -/
def MSG_TOO_LARGE_AUDIO : FName :=
  ("Fichier trop volumineux. Maximum: ".data) ++
    (Nat.toDigits 10 (MAX_AUDIO_SIZE / (1024 * 1024))) ++ (" MB".data)

/-- Message of the ValueError raised when the api key is missing. -/
def MSG_KEY : FName :=
  "OPENAI_API_KEY non configurée dans les variables d\x27environnement".data

/-- Message head prepended to any exception text caught by the outer
handler of the transcription route. -/
def MSG_TRANS_HEAD : FName := "Erreur lors de la transcription: ".data

/-- Message for a request without a file part. -/
def MSG_NO_FILE : FName := "Aucun fichier fourni".data

/-- Message for an unsupported upload format; enumerates the accepted set. -/
def MSG_UPLOAD_FORMAT : FName :=
  ("Format non supporté. Formats acceptés: ".data) ++
    joinComma ALLOWED_UPLOAD_EXTENSIONS

/-- Message for an oversize upload payload. -/
def MSG_TOO_LARGE_FILE : FName :=
  ("Fichier trop volumineux. Maximum: ".data) ++
    (Nat.toDigits 10 (MAX_FILE_SIZE / (1024 * 1024))) ++ (" MB".data)

/-- Observable behaviour of the external transcription call once invoked:
it returns a transcript, raises a service-reported error (for example
malformed audio), or raises an unexpected internal fault.  The python
handler catches the latter two identically under except Exception. -/
inductive CallBehavior
| succeed (text : FName) (duration : Option Nat)
| serviceError (msg : FName)
| internalFault (msg : FName)
deriving DecidableEq

/-- Request-scoped environment of the transcription route: presence of the
audio part, its filename and measured size, the language hint, the random
hex used for the temp name, whether the api key is configured, and the
behaviour of the external call if reached. -/
structure TEnv where
  hasAudio : Bool
  filename : FName
  fileSize : Nat
  language : FName
  uuidHex : FName
  apiKeyPresent : Bool
  call : CallBehavior
deriving DecidableEq

/-- Structured response of the transcription route; staged records whether
execution reached the staging step (the temp-file write). -/
structure TResponse where
  status : Nat
  success : Bool
  error : Option FName
  text : Option FName
  duration : Option Nat
  language : Option FName
  staged : Bool
deriving DecidableEq

/-- Name of the staging temp file, audio_ plus random hex plus the
lowercased extension of the uploaded filename. -/
def tempName (env : TEnv) : FName :=
  ("audio_".data) ++ env.uuidHex ++ '.' :: lowerExt env.filename

/-- Path of the staging temp file in the system temp directory. -/
def tempFilePath (env : TEnv) : FPath := (SDir.tmp, tempName env)

/-- Embeds the transcribe_audio route handler.  Checks run in source order:
audio part present, filename non-empty, extension allowed, size at most the
audio ceiling.  Staging writes the temp file; the inner try/finally removes
it on every continuation, so each post-staging branch returns the cleaned
filesystem.  A missing api key raises ValueError (caught as a 500), and any
exception from the external call is caught by except Exception (500). -/
def transcribe_audio (env : TEnv) (fs : FS) : TResponse × FS :=
  if env.hasAudio = false then
    (⟨400, false, some MSG_NO_AUDIO, none, none, none, false⟩, fs)
  else if env.filename = [] then
    (⟨400, false, some MSG_EMPTY_NAME, none, none, none, false⟩, fs)
  else if allowed_file env.filename ALLOWED_AUDIO_EXTENSIONS = false then
    (⟨400, false, some MSG_AUDIO_FORMAT, none, none, none, false⟩, fs)
  else if MAX_AUDIO_SIZE < env.fileSize then
    (⟨400, false, some MSG_TOO_LARGE_AUDIO, none, none, none, false⟩, fs)
  else
    let staged : FS := { fs with files := insert (tempFilePath env) fs.files }
    let cleaned : FS := { staged with files := staged.files.erase (tempFilePath env) }
    if env.apiKeyPresent = false then
      (⟨500, false, some MSG_KEY, none, none, none, true⟩, cleaned)
    else
      match env.call with
      | CallBehavior.succeed t d =>
          (⟨200, true, none, some t, d, some env.language, true⟩, cleaned)
      | CallBehavior.serviceError m =>
          (⟨500, false, some (MSG_TRANS_HEAD ++ m), none, none, none, true⟩, cleaned)
      | CallBehavior.internalFault m =>
          (⟨500, false, some (MSG_TRANS_HEAD ++ m), none, none, none, true⟩, cleaned)

/-- Availability of the image capability at upload time: not installed
(ImportError, raised before the thumbs folder is created), raising a fault
(modelled at image-open time, after the folder creation and before any
thumbnail write), or working on an image with the given colour mode. -/
inductive PilAvail
| unavailable
| fault
| ok (mode : FName)
deriving DecidableEq

/-- Availability of the PDF capability: not installed, raising a fault, or
yielding the given list of per-page extracted texts. -/
inductive PdfAvail
| unavailable
| fault
| ok (pages : List FName)
deriving DecidableEq

/-- Arguments of the final thumbnail save: the colour mode after the
conversion step, the bounding box passed to the resize call, and the save
options. -/
structure ThumbSave where
  mode : FName
  boxW : Nat
  boxH : Nat
  quality : Nat
  optimize : Bool
deriving DecidableEq

/-- Embeds the image processing of create_thumbnail when the capability is
present: modes RGBA and P are converted to RGB, every other mode is left
unchanged; the box passed to the resize call is 200 by 200 (fitting the box
while preserving aspect ratio is the contract of the capability), and the
save uses quality 85 with optimize enabled. -/
def thumbProcessed (mode : FName) : ThumbSave :=
  { mode := if mode = ("RGBA".data) ∨ mode = ("P".data) then ("RGB".data) else mode,
    boxW := 200, boxH := 200, quality := 85, optimize := true }

/-- Thumbnail filename for an identifier and extension. -/
def thumbFileName (fid ext : FName) : FName := fid ++ ("_thumb.".data) ++ ext

/-- Embeds create_thumbnail: when the capability is missing nothing is
touched; when it faults the thumbs folder has already been created but no
file is written; when it works the thumbs folder is created and the
processed thumbnail is written, and the thumb path is returned. -/
def create_thumbnail (pil : PilAvail) (fid ext : FName) (fs : FS) :
    Option ThumbSave × FS :=
  match pil with
  | PilAvail.unavailable => (none, fs)
  | PilAvail.fault => (none, { fs with dirs := insert SDir.thumbs fs.dirs })
  | PilAvail.ok mode =>
      (some (thumbProcessed mode),
       { files := insert (SDir.thumbs, thumbFileName fid ext) fs.files,
         dirs := insert SDir.thumbs fs.dirs })

/-- Python str.strip with no argument: whitespace removed from both ends. -/
def pyStripWs (s : FName) : FName :=
  ((s.dropWhile Char.isWhitespace).reverse.dropWhile Char.isWhitespace).reverse

/-- Embeds extract_pdf_text: missing capability or a fault yield none;
otherwise the texts of at most the first ten pages are concatenated, each
followed by a newline, and the result is stripped. -/
def extract_pdf_text (pdf : PdfAvail) : Option FName :=
  match pdf with
  | PdfAvail.unavailable => none
  | PdfAvail.fault => none
  | PdfAvail.ok pages =>
      some (pyStripWs (List.foldl (fun acc p => acc ++ p ++ ['\n']) [] (pages.take 10)))

/-- Extension to MIME table of the upload route. -/
def mimeTable : List (FName × FName) :=
  [ ("jpg".data, "image/jpeg".data), ("jpeg".data, "image/jpeg".data),
    ("png".data, "image/png".data), ("gif".data, "image/gif".data),
    ("webp".data, "image/webp".data), ("heic".data, "image/heic".data),
    ("pdf".data, "application/pdf".data), ("txt".data, "text/plain".data),
    ("md".data, "text/markdown".data) ]

/-- MIME lookup with the generic binary default. -/
def mimeFor (ext : FName) : FName :=
  match mimeTable.lookup ext with
  | some m => m
  | none => "application/octet-stream".data

/-- File descriptor of a successful upload response. -/
structure FileRec where
  id : FName
  ftype : FName
  fileName : FName
  fileURL : FName
  thumbnailURL : Option FName
  fileSize : Nat
  mimeType : FName
  extractedText : Option FName
deriving DecidableEq

/-- Structured response of the upload route. -/
structure UResponse where
  status : Nat
  success : Bool
  error : Option FName
  file : Option FileRec
deriving DecidableEq

/-- Request-scoped environment of the upload route: presence of the file
part, its filename and measured size, the generated identifier, the host
base url, and the behaviour of the two derivation capabilities. -/
structure UEnv where
  hasFile : Bool
  filename : FName
  fileSize : Nat
  fileId : FName
  baseUrl : FName
  pil : PilAvail
  pdf : PdfAvail
deriving DecidableEq

/-- Artifact filename for an identifier and extension. -/
def artFileName (fid ext : FName) : FName := fid ++ '.' :: ext

/-- Embeds the upload_file route handler.  Checks run in source order: file
part present, filename non-empty, extension allowed against the upload
union, size at most the file ceiling.  Then the filename is sanitised, the
stored extension and type are computed from the sanitised name, the chat
folder is created, the original is persisted, a thumbnail is derived for
images, text is extracted for pdf extensions, and the response record is
assembled.  The extracted text key is added only when the text is truthy,
truncated to 5000 characters. -/
def upload_file (env : UEnv) (fs : FS) : UResponse × FS :=
  if env.hasFile = false then (⟨400, false, some MSG_NO_FILE, none⟩, fs)
  else if env.filename = [] then (⟨400, false, some MSG_EMPTY_NAME, none⟩, fs)
  else if allowed_file env.filename ALLOWED_UPLOAD_EXTENSIONS = false then
    (⟨400, false, some MSG_UPLOAD_FORMAT, none⟩, fs)
  else if MAX_FILE_SIZE < env.fileSize then
    (⟨400, false, some MSG_TOO_LARGE_FILE, none⟩, fs)
  else
    let original := secure_filename env.filename
    let ext := extOrEmpty original
    let newFilename := artFileName env.fileId ext
    let ftype := get_file_type original
    let fs1 : FS := { fs with dirs := insert SDir.chat fs.dirs }
    let fs2 : FS := { fs1 with files := insert (SDir.chat, newFilename) fs1.files }
    let fileUrl := env.baseUrl ++ ("/uploads/chat/".data) ++ newFilename
    let thumbRes :=
      if ftype = ("image".data) then create_thumbnail env.pil env.fileId ext fs2
      else (none, fs2)
    let thumbUrl :=
      match thumbRes.1 with
      | some _ =>
          some (env.baseUrl ++ ("/uploads/chat/thumbs/".data) ++
            thumbFileName env.fileId ext)
      | none => none
    let extracted := if ext = ("pdf".data) then extract_pdf_text env.pdf else none
    let extractedField :=
      match extracted with
      | some t => if t = [] then none else some (t.take 5000)
      | none => none
    (⟨200, true, none,
      some { id := env.fileId, ftype := ftype, fileName := original,
             fileURL := fileUrl, thumbnailURL := thumbUrl,
             fileSize := env.fileSize, mimeType := mimeFor ext,
             extractedText := extractedField }⟩, thumbRes.2)

/-- Outcome of the delete route. -/
inductive DeleteOutcome
| deleted
| notFound
deriving DecidableEq

/-- Filesystem effect of the body of the delete loop on a match: remove the
original, then remove the thumbnail if it exists. -/
def eraseArtifact (fid e : FName) (fs : FS) : FS :=
  let fs1 : FS := { fs with files := fs.files.erase (SDir.chat, artFileName fid e) }
  if (SDir.thumbs, thumbFileName fid e) ∈ fs1.files then
    { fs1 with files := fs1.files.erase (SDir.thumbs, thumbFileName fid e) }
  else fs1

/-- The probing loop of delete_file: test each known extension in turn and
stop at the first existing artifact. -/
def deleteProbe (fid : FName) (fs : FS) : List FName → DeleteOutcome × FS
| [] => (DeleteOutcome.notFound, fs)
| e :: rest =>
  if (SDir.chat, artFileName fid e) ∈ fs.files then
    (DeleteOutcome.deleted, eraseArtifact fid e fs)
  else deleteProbe fid fs rest

/-- Embeds the delete_file route handler over the upload extension union. -/
def delete_file (fid : FName) (fs : FS) : DeleteOutcome × FS :=
  deleteProbe fid fs ALLOWED_UPLOAD_EXTENSIONS

/-- First known extension whose artifact exists for the identifier. -/
def firstMatch (fid : FName) (fs : FS) (l : List FName) : Option FName :=
  l.find? (fun e => decide ((SDir.chat, artFileName fid e) ∈ fs.files))

/-- The empty filesystem, used by concrete witnesses. -/
def fsEmpty : FS := ⟨∅, ∅⟩

/-- A valid concrete transcription request that succeeds. -/
def tEnvW : TEnv :=
  { hasAudio := true, filename := "voice.mp3".data, fileSize := 1000,
    language := "fr".data, uuidHex := "abc123".data, apiKeyPresent := true,
    call := CallBehavior.succeed ("bonjour".data) (some 5) }

/-- The same request with the api key missing. -/
def tEnvCfg : TEnv := { tEnvW with apiKeyPresent := false }

/-- The same request with the external service reporting a fault. -/
def tEnvSvc : TEnv :=
  { tEnvW with call := CallBehavior.serviceError ("Invalid file format".data) }

/-- The same request hitting an unexpected internal fault. -/
def tEnvInt : TEnv :=
  { tEnvW with call := CallBehavior.internalFault ("disk error".data) }

/-- The same request with a 26 MiB payload, above the audio ceiling. -/
def tEnvBig : TEnv := { tEnvW with fileSize := 26 * 1024 * 1024 }

/-- A valid concrete image upload with a working image capability. -/
def uEnvW : UEnv :=
  { hasFile := true, filename := "photo.jpg".data, fileSize := 51200,
    fileId := "file_ab12cd34ef56".data, baseUrl := "http://localhost".data,
    pil := PilAvail.ok ("RGB".data), pdf := PdfAvail.unavailable }

/-- An upload request whose file part carries an empty filename. -/
def uEnvEmptyName : UEnv := { uEnvW with filename := [] }

/-- An upload request with a disallowed extension. -/
def uEnvExe : UEnv := { uEnvW with filename := "script.exe".data }

/-- An image upload with the image capability unavailable. -/
def uEnvNoThumb : UEnv :=
  { uEnvW with filename := "photo.png".data, pil := PilAvail.unavailable }

/-- A pdf upload with the pdf capability unavailable. -/
def uEnvPdf : UEnv :=
  { uEnvW with filename := "doc.pdf".data, pil := PilAvail.unavailable }

/-- The upload of a bare dotted extension as the whole filename. -/
def uEnvDotJpg : UEnv :=
  { uEnvW with filename := ".jpg".data, fileSize := 4, pil := PilAvail.unavailable }

/-- A filesystem holding one artifact of an unrelated identifier. -/
def fsOther : FS :=
  ⟨{(SDir.chat, artFileName ("file_y".data) ("jpg".data))}, ∅⟩

/-! Helper lemmas shared by the claim theorems. -/

theorem notDot_eq_true {c : Char} (h : c ≠ '.') : notDot c = true := by
  simp [notDot, h]

theorem takeWhile_notDot_append (l r : List Char) (h : '.' ∉ l) :
    List.takeWhile notDot (l ++ '.' :: r) = l := by
  induction l with
  | nil => simp [List.takeWhile, notDot]
  | cons c t ih =>
    have hc : c ≠ '.' := fun hm => h (hm ▸ List.mem_cons_self c t)
    have ht : '.' ∉ t := fun hm => h (List.mem_cons_of_mem _ hm)
    simp [List.takeWhile, notDot_eq_true hc, ih ht]

theorem afterLastDot_append (fid e : FName) (he : '.' ∉ e) :
    afterLastDot (fid ++ '.' :: e) = e := by
  unfold afterLastDot
  have h1 : (fid ++ '.' :: e).reverse = e.reverse ++ '.' :: fid.reverse := by
    simp [List.reverse_append]
  rw [h1, takeWhile_notDot_append _ _ (by simpa using he), List.reverse_reverse]

theorem artFileName_inj {fid fid2 e e2 : FName} (he : '.' ∉ e) (he2 : '.' ∉ e2)
    (h : artFileName fid e = artFileName fid2 e2) : fid = fid2 ∧ e = e2 := by
  have hee : e = e2 := by
    have h1 := congrArg afterLastDot h
    simp only [artFileName] at h1
    rwa [afterLastDot_append _ _ he, afterLastDot_append _ _ he2] at h1
  subst hee
  refine ⟨?_, rfl⟩
  have h2 : fid ++ '.' :: e = fid2 ++ '.' :: e := h
  exact List.append_cancel_right h2

theorem noDot_upload_exts : ∀ e ∈ ALLOWED_UPLOAD_EXTENSIONS, '.' ∉ e := by decide

theorem mem_eraseArtifact (fid e : FName) (fs : FS) (p : FPath) :
    p ∈ (eraseArtifact fid e fs).files ↔
      p ∈ fs.files ∧ p ≠ (SDir.chat, artFileName fid e) ∧
        p ≠ (SDir.thumbs, thumbFileName fid e) := by
  unfold eraseArtifact
  by_cases ht : (SDir.thumbs, thumbFileName fid e) ∈
      fs.files.erase (SDir.chat, artFileName fid e)
  · simp only [ht, if_true]
    constructor
    · intro hp
      rcases Finset.mem_erase.mp hp with ⟨hne2, hp1⟩
      rcases Finset.mem_erase.mp hp1 with ⟨hne1, hp0⟩
      exact ⟨hp0, hne1, hne2⟩
    · rintro ⟨hp0, hne1, hne2⟩
      exact Finset.mem_erase.mpr ⟨hne2, Finset.mem_erase.mpr ⟨hne1, hp0⟩⟩
  · simp only [ht, if_false]
    constructor
    · intro hp
      rcases Finset.mem_erase.mp hp with ⟨hne1, hp0⟩
      refine ⟨hp0, hne1, ?_⟩
      rintro rfl
      exact ht hp
    · rintro ⟨hp0, hne1, _⟩
      exact Finset.mem_erase.mpr ⟨hne1, hp0⟩

theorem eraseArtifact_dirs (fid e : FName) (fs : FS) :
    (eraseArtifact fid e fs).dirs = fs.dirs := by
  unfold eraseArtifact
  by_cases ht : (SDir.thumbs, thumbFileName fid e) ∈
      fs.files.erase (SDir.chat, artFileName fid e) <;> simp [ht]

theorem deleteProbe_char (fid : FName) (fs : FS) (l : List FName) :
    deleteProbe fid fs l =
      match firstMatch fid fs l with
      | some e => (DeleteOutcome.deleted, eraseArtifact fid e fs)
      | none => (DeleteOutcome.notFound, fs) := by
  induction l with
  | nil => rfl
  | cons e rest ih =>
    by_cases h : (SDir.chat, artFileName fid e) ∈ fs.files
    · have hf : firstMatch fid fs (e :: rest) = some e := by
        unfold firstMatch
        exact List.find?_cons_of_pos _ (by simpa using h)
      rw [hf]
      simp [deleteProbe, h]
    · have hf : firstMatch fid fs (e :: rest) = firstMatch fid fs rest := by
        unfold firstMatch
        exact List.find?_cons_of_neg _ (by simpa using h)
      rw [hf]
      simp only [deleteProbe, if_neg h]
      exact ih

theorem firstMatch_mem {fid : FName} {fs : FS} {l : List FName} {e : FName}
    (h : firstMatch fid fs l = some e) :
    e ∈ l ∧ (SDir.chat, artFileName fid e) ∈ fs.files := by
  refine ⟨List.mem_of_find?_eq_some h, ?_⟩
  have := List.find?_some h
  simpa using this

theorem firstMatch_none {fid : FName} {fs : FS} {l : List FName}
    (h : firstMatch fid fs l = none) :
    ∀ e ∈ l, (SDir.chat, artFileName fid e) ∉ fs.files := by
  intro e he hmem
  have := List.find?_eq_none.mp h e he
  simp [hmem] at this

theorem firstMatch_isSome {fid : FName} {fs : FS} {l : List FName} {e : FName}
    (he : e ∈ l) (hmem : (SDir.chat, artFileName fid e) ∈ fs.files) :
    ∃ e2, firstMatch fid fs l = some e2 := by
  cases hf : firstMatch fid fs l with
  | some e2 => exact ⟨e2, rfl⟩
  | none => exact absurd hmem (firstMatch_none hf e he)

theorem eraseArtifact_files (fid e : FName) (fs : FS) :
    (eraseArtifact fid e fs).files =
      (fs.files.erase (SDir.chat, artFileName fid e)).erase
        (SDir.thumbs, thumbFileName fid e) := by
  unfold eraseArtifact
  by_cases ht : (SDir.thumbs, thumbFileName fid e) ∈
      fs.files.erase (SDir.chat, artFileName fid e)
  · simp [ht]
  · simp [ht, Finset.erase_eq_of_not_mem ht]

theorem firstMatch_unique {fid ext : FName} {fs : FS} {l : List FName}
    (hmem : ext ∈ l) (hin : (SDir.chat, artFileName fid ext) ∈ fs.files)
    (honly : ∀ e ∈ l, (SDir.chat, artFileName fid e) ∈ fs.files → e = ext) :
    firstMatch fid fs l = some ext := by
  induction l with
  | nil => cases hmem
  | cons a rest ih =>
    by_cases ha : (SDir.chat, artFileName fid a) ∈ fs.files
    · have haext : a = ext := honly a (List.mem_cons_self a rest) ha
      subst haext
      unfold firstMatch
      exact List.find?_cons_of_pos _ (by simpa using ha)
    · have hne : a ≠ ext := by
        rintro rfl
        exact ha hin
      have hmem2 : ext ∈ rest := by
        rcases List.mem_cons.mp hmem with h | h
        · exact absurd h.symm hne
        · exact h
      have honly2 : ∀ e ∈ rest, (SDir.chat, artFileName fid e) ∈ fs.files → e = ext :=
        fun e he hh => honly e (List.mem_cons_of_mem _ he) hh
      unfold firstMatch at ih ⊢
      rw [List.find?_cons_of_neg _ (by simpa using ha)]
      exact ih hmem2 honly2

theorem delete_deleted_iff (fid : FName) (fs : FS) :
    (delete_file fid fs).1 = DeleteOutcome.deleted ↔
      ∃ e, e ∈ ALLOWED_UPLOAD_EXTENSIONS ∧
        (SDir.chat, artFileName fid e) ∈ fs.files := by
  rw [delete_file, deleteProbe_char]
  cases hf : firstMatch fid fs ALLOWED_UPLOAD_EXTENSIONS with
  | none =>
    constructor
    · intro h
      simp at h
    · rintro ⟨e, he, hmem⟩
      exact absurd hmem (firstMatch_none hf e he)
  | some e =>
    constructor
    · intro _
      exact ⟨e, (firstMatch_mem hf).1, (firstMatch_mem hf).2⟩
    · intro _
      rfl

theorem delete_notFound_of_fresh (fid : FName) (fs : FS)
    (h : ∀ e ∈ ALLOWED_UPLOAD_EXTENSIONS,
      (SDir.chat, artFileName fid e) ∉ fs.files) :
    (delete_file fid fs).1 = DeleteOutcome.notFound := by
  rw [delete_file, deleteProbe_char]
  cases hf : firstMatch fid fs ALLOWED_UPLOAD_EXTENSIONS with
  | none => rfl
  | some e => exact absurd (firstMatch_mem hf).2 (h e (firstMatch_mem hf).1)

theorem delete_file_of_unique (fid ext : FName) (g : FS)
    (hext : ext ∈ ALLOWED_UPLOAD_EXTENSIONS)
    (hin : (SDir.chat, artFileName fid ext) ∈ g.files)
    (honly : ∀ e ∈ ALLOWED_UPLOAD_EXTENSIONS,
       (SDir.chat, artFileName fid e) ∈ g.files → e = ext) :
    (delete_file fid g).1 = DeleteOutcome.deleted ∧
    (delete_file fid g).2.files =
      (g.files.erase (SDir.chat, artFileName fid ext)).erase
        (SDir.thumbs, thumbFileName fid ext) := by
  have hf : firstMatch fid g ALLOWED_UPLOAD_EXTENSIONS = some ext :=
    firstMatch_unique hext hin honly
  rw [delete_file, deleteProbe_char, hf]
  exact ⟨rfl, eraseArtifact_files fid ext g⟩

/-! Claim theorems. -/

/-- C1: every transcription request that reaches the staging step (the
temp-file write) has its staged temporary file absent from the filesystem
when the handler returns, on every outcome: success, service-reported
error, missing-credential configuration fault, or unexpected internal
fault. -/
theorem c1_staged_temp_always_cleaned (env : TEnv) (fs : FS)
    (h : (transcribe_audio env fs).1.staged = true) :
    tempFilePath env ∉ (transcribe_audio env fs).2.files := by
  unfold transcribe_audio at h ⊢
  by_cases h1 : env.hasAudio = false
  · simp [h1] at h
  · by_cases h2 : env.filename = []
    · simp [h1, h2] at h
    · by_cases h3 : allowed_file env.filename ALLOWED_AUDIO_EXTENSIONS = false
      · simp [h1, h2, h3] at h
      · by_cases h4 : MAX_AUDIO_SIZE < env.fileSize
        · simp [h1, h2, h3, h4] at h
        · by_cases h5 : env.apiKeyPresent = false
          · simp [h1, h2, h3, h4, h5, Finset.mem_erase]
          · cases hc : env.call <;>
              simp [h1, h2, h3, h4, h5, hc, Finset.mem_erase]

/-- Witness for C1 at a concrete successful request. -/
theorem c1_staged_temp_always_cleaned_witness :
    tempFilePath tEnvW ∉ (transcribe_audio tEnvW fsEmpty).2.files :=
  c1_staged_temp_always_cleaned tEnvW fsEmpty (by decide)

/-- C2 counterexample: a missing-credential run, a service-error run and an
internal-fault run all return status 500, so the three error categories are
not pairwise distinguished by the status code returned to the caller. -/
theorem c2_counterexample :
    (transcribe_audio tEnvCfg fsEmpty).1.status = 500 ∧
    (transcribe_audio tEnvSvc fsEmpty).1.status = 500 ∧
    (transcribe_audio tEnvInt fsEmpty).1.status = 500 := by decide

/-- C2 amended: the three error categories of the transcribe operation all
surface with status 500 (distinct from the 400 admission errors but not
from one another); the configuration fault carries the raw credential
message, while service-reported and internal faults both carry the
transcription-error message head and are not further distinguished. -/
theorem c2_amended_fault_statuses (env : TEnv) (fs : FS)
    (h1 : env.hasAudio = true) (h2 : env.filename ≠ [])
    (h3 : allowed_file env.filename ALLOWED_AUDIO_EXTENSIONS = true)
    (h4 : env.fileSize ≤ MAX_AUDIO_SIZE) :
    (env.apiKeyPresent = false →
       (transcribe_audio env fs).1.status = 500 ∧
       (transcribe_audio env fs).1.error = some MSG_KEY) ∧
    (∀ m, env.call = CallBehavior.serviceError m → env.apiKeyPresent = true →
       (transcribe_audio env fs).1.status = 500 ∧
       (transcribe_audio env fs).1.error = some (MSG_TRANS_HEAD ++ m)) ∧
    (∀ m, env.call = CallBehavior.internalFault m → env.apiKeyPresent = true →
       (transcribe_audio env fs).1.status = 500 ∧
       (transcribe_audio env fs).1.error = some (MSG_TRANS_HEAD ++ m)) := by
  have h1' : ¬ env.hasAudio = false := by simp [h1]
  have h3' : ¬ allowed_file env.filename ALLOWED_AUDIO_EXTENSIONS = false := by
    simp [h3]
  have h4' : ¬ MAX_AUDIO_SIZE < env.fileSize := not_lt.mpr h4
  refine ⟨?_, ?_, ?_⟩
  · intro hk
    simp [transcribe_audio, h1', h2, h3', h4', hk]
  · intro m hm hk
    simp [transcribe_audio, h1', h2, h3', h4', hk, hm]
  · intro m hm hk
    simp [transcribe_audio, h1', h2, h3', h4', hk, hm]

/-- Witness for the amended C2 at a concrete missing-credential request. -/
theorem c2_amended_fault_statuses_witness :
    (transcribe_audio tEnvCfg fsEmpty).1.status = 500 ∧
    (transcribe_audio tEnvCfg fsEmpty).1.error = some MSG_KEY :=
  (c2_amended_fault_statuses tEnvCfg fsEmpty (by decide) (by decide) (by decide)
    (by decide)).1 (by decide)

/-- C3: a payload strictly above the ceiling (25 MiB audio, 20 MiB upload)
is rejected with the too-large message and the filesystem is untouched (no
temp file staged, no directory created, no file persisted), while a payload
at or below the ceiling passes the size check (the audio request reaches
staging, the upload succeeds). -/
theorem c3_size_ceilings (envT : TEnv) (envU : UEnv) (fs : FS)
    (hT1 : envT.hasAudio = true) (hT2 : envT.filename ≠ [])
    (hT3 : allowed_file envT.filename ALLOWED_AUDIO_EXTENSIONS = true)
    (hU1 : envU.hasFile = true) (hU2 : envU.filename ≠ [])
    (hU3 : allowed_file envU.filename ALLOWED_UPLOAD_EXTENSIONS = true) :
    (MAX_AUDIO_SIZE < envT.fileSize →
       transcribe_audio envT fs =
         (⟨400, false, some MSG_TOO_LARGE_AUDIO, none, none, none, false⟩, fs)) ∧
    (envT.fileSize ≤ MAX_AUDIO_SIZE → (transcribe_audio envT fs).1.staged = true) ∧
    (MAX_FILE_SIZE < envU.fileSize →
       upload_file envU fs = (⟨400, false, some MSG_TOO_LARGE_FILE, none⟩, fs)) ∧
    (envU.fileSize ≤ MAX_FILE_SIZE →
       (upload_file envU fs).1.success = true ∧
       (upload_file envU fs).1.status = 200) := by
  have hT1' : ¬ envT.hasAudio = false := by simp [hT1]
  have hT3' : ¬ allowed_file envT.filename ALLOWED_AUDIO_EXTENSIONS = false := by
    simp [hT3]
  have hU1' : ¬ envU.hasFile = false := by simp [hU1]
  have hU3' : ¬ allowed_file envU.filename ALLOWED_UPLOAD_EXTENSIONS = false := by
    simp [hU3]
  refine ⟨?_, ?_, ?_, ?_⟩
  · intro hbig
    simp [transcribe_audio, hT1', hT2, hT3', hbig]
  · intro hok
    have hlt : ¬ MAX_AUDIO_SIZE < envT.fileSize := not_lt.mpr hok
    by_cases hk : envT.apiKeyPresent = false
    · simp [transcribe_audio, hT1', hT2, hT3', hlt, hk]
    · cases hc : envT.call <;>
        simp [transcribe_audio, hT1', hT2, hT3', hlt, hk, hc]
  · intro hbig
    simp [upload_file, hU1', hU2, hU3', hbig]
  · intro hok
    have hlt : ¬ MAX_FILE_SIZE < envU.fileSize := not_lt.mpr hok
    simp [upload_file, hU1', hU2, hU3', hlt]

/-- Witness for C3: a 26 MiB audio payload is rejected with no filesystem
effect, and a 50 KiB image upload succeeds. -/
theorem c3_size_ceilings_witness :
    transcribe_audio tEnvBig fsEmpty =
      (⟨400, false, some MSG_TOO_LARGE_AUDIO, none, none, none, false⟩, fsEmpty) ∧
    (upload_file uEnvW fsEmpty).1.success = true := by
  have H := c3_size_ceilings tEnvBig uEnvW fsEmpty (by decide) (by decide)
    (by decide) (by decide) (by decide) (by decide)
  exact ⟨H.1 (by decide), (H.2.2.2 (by decide)).1⟩

/-- C4 counterexample: the empty filename contains no dot, yet the upload
handler rejects it with the empty-name message, which is not the
unsupported-format message and does not enumerate the accepted set (the
extension jpg does not occur in it). -/
theorem c4_counterexample :
    (uEnvEmptyName.filename.contains '.') = false ∧
    (upload_file uEnvEmptyName fsEmpty).1.error = some MSG_EMPTY_NAME ∧
    MSG_EMPTY_NAME ≠ MSG_UPLOAD_FORMAT ∧
    occursIn ("jpg".data) MSG_EMPTY_NAME = false ∧
    (upload_file uEnvEmptyName fsEmpty).2 = fsEmpty := by decide

/-- C4 amended: for every non-empty filename without a dot, or whose
lowercased last extension is outside the allowed upload set, the upload
rejects with the unsupported-format message, that message mentions every
accepted extension, and the filesystem is untouched (no directory created,
no file persisted). -/
theorem c4_amended_unsupported_format (env : UEnv) (fs : FS)
    (h1 : env.hasFile = true) (h2 : env.filename ≠ [])
    (h3 : env.filename.contains '.' = false ∨
      ALLOWED_UPLOAD_EXTENSIONS.contains (lowerExt env.filename) = false) :
    upload_file env fs = (⟨400, false, some MSG_UPLOAD_FORMAT, none⟩, fs) ∧
    (∀ e ∈ ALLOWED_UPLOAD_EXTENSIONS, occursIn e MSG_UPLOAD_FORMAT = true) := by
  have h1' : ¬ env.hasFile = false := by simp [h1]
  have hall : allowed_file env.filename ALLOWED_UPLOAD_EXTENSIONS = false := by
    unfold allowed_file
    rcases h3 with h | h <;> simp at h <;> simp [h]
  constructor
  · simp [upload_file, h1', h2, hall]
  · decide

/-- Witness for the amended C4 at a concrete exe upload. -/
theorem c4_amended_unsupported_format_witness :
    upload_file uEnvExe fsEmpty =
      (⟨400, false, some MSG_UPLOAD_FORMAT, none⟩, fsEmpty) ∧
    (∀ e ∈ ALLOWED_UPLOAD_EXTENSIONS, occursIn e MSG_UPLOAD_FORMAT = true) :=
  c4_amended_unsupported_format uEnvExe fsEmpty (by decide) (by decide)
    (Or.inr (by decide))

/-- C5: delete returns Deleted exactly when some known extension has an
existing artifact for the identifier; and after a successful image upload
under a fresh identifier, deleting the returned identifier removes the
stored original and its thumbnail (when one was derived) and a second
delete returns NotFound. -/
theorem c5_upload_delete_roundtrip (env : UEnv) (fs : FS)
    (h1 : env.hasFile = true) (h2 : env.filename ≠ [])
    (h3 : allowed_file env.filename ALLOWED_UPLOAD_EXTENSIONS = true)
    (h4 : env.fileSize ≤ MAX_FILE_SIZE)
    (himg : ALLOWED_IMAGE_EXTENSIONS.contains
      (extOrEmpty (secure_filename env.filename)) = true)
    (hfreshA : ∀ e ∈ ALLOWED_UPLOAD_EXTENSIONS,
      (SDir.chat, artFileName env.fileId e) ∉ fs.files)
    (hfreshT : ∀ e ∈ ALLOWED_UPLOAD_EXTENSIONS,
      (SDir.thumbs, thumbFileName env.fileId e) ∉ fs.files) :
    (∀ fid g, ((delete_file fid g).1 = DeleteOutcome.deleted ↔
        ∃ e, e ∈ ALLOWED_UPLOAD_EXTENSIONS ∧
          (SDir.chat, artFileName fid e) ∈ g.files)) ∧
    (upload_file env fs).1.success = true ∧
    Option.map FileRec.id (upload_file env fs).1.file = some env.fileId ∧
    (delete_file env.fileId (upload_file env fs).2).1 = DeleteOutcome.deleted ∧
    (SDir.chat, artFileName env.fileId (extOrEmpty (secure_filename env.filename))) ∉
      (delete_file env.fileId (upload_file env fs).2).2.files ∧
    (SDir.thumbs, thumbFileName env.fileId (extOrEmpty (secure_filename env.filename))) ∉
      (delete_file env.fileId (upload_file env fs).2).2.files ∧
    (delete_file env.fileId
        (delete_file env.fileId (upload_file env fs).2).2).1 =
      DeleteOutcome.notFound := by
  have h1' : ¬ env.hasFile = false := by simp [h1]
  have h3' : ¬ allowed_file env.filename ALLOWED_UPLOAD_EXTENSIONS = false := by
    simp [h3]
  have hlt : ¬ MAX_FILE_SIZE < env.fileSize := not_lt.mpr h4
  have himg2 : extOrEmpty (secure_filename env.filename) ∈ ALLOWED_IMAGE_EXTENSIONS := by
    simpa using himg
  have hextU : extOrEmpty (secure_filename env.filename) ∈ ALLOWED_UPLOAD_EXTENSIONS :=
    List.mem_append.mpr (Or.inl himg2)
  have hdext : '.' ∉ extOrEmpty (secure_filename env.filename) :=
    noDot_upload_exts _ hextU
  have haud : ALLOWED_AUDIO_EXTENSIONS.contains
      (extOrEmpty (secure_filename env.filename)) = false := by
    have hd : ∀ e ∈ ALLOWED_IMAGE_EXTENSIONS,
        ALLOWED_AUDIO_EXTENSIONS.contains e = false := by decide
    exact hd _ himg2
  have haud2 : extOrEmpty (secure_filename env.filename) ∉ ALLOWED_AUDIO_EXTENSIONS := by
    simpa using haud
  have hft : get_file_type (secure_filename env.filename) = ("image".data) := by
    unfold get_file_type
    simp [haud2, himg2]
  have hfiles : (upload_file env fs).2.files =
      insert (SDir.chat, artFileName env.fileId
        (extOrEmpty (secure_filename env.filename))) fs.files ∨
      (upload_file env fs).2.files =
      insert (SDir.thumbs, thumbFileName env.fileId
          (extOrEmpty (secure_filename env.filename)))
        (insert (SDir.chat, artFileName env.fileId
          (extOrEmpty (secure_filename env.filename))) fs.files) := by
    cases hp : env.pil with
    | unavailable =>
        left
        simp [upload_file, create_thumbnail, h1', h2, h3', hlt, hp, hft]
    | fault =>
        left
        simp [upload_file, create_thumbnail, h1', h2, h3', hlt, hp, hft]
    | ok m =>
        right
        simp [upload_file, create_thumbnail, h1', h2, h3', hlt, hp, hft]
  have hinA : (SDir.chat, artFileName env.fileId
      (extOrEmpty (secure_filename env.filename))) ∈ (upload_file env fs).2.files := by
    rcases hfiles with hf | hf <;> rw [hf]
    · exact Finset.mem_insert_self _ _
    · exact Finset.mem_insert_of_mem (Finset.mem_insert_self _ _)
  have honly : ∀ e ∈ ALLOWED_UPLOAD_EXTENSIONS,
      (SDir.chat, artFileName env.fileId e) ∈ (upload_file env fs).2.files →
        e = extOrEmpty (secure_filename env.filename) := by
    intro e he hmem
    have hde : '.' ∉ e := noDot_upload_exts e he
    rcases hfiles with hf | hf <;> rw [hf] at hmem
    · rcases Finset.mem_insert.mp hmem with hq | hq
      · exact (artFileName_inj hde hdext (congrArg Prod.snd hq)).2
      · exact absurd hq (hfreshA e he)
    · rcases Finset.mem_insert.mp hmem with hq | hq
      · exact absurd (congrArg Prod.fst hq) (fun hcc => SDir.noConfusion hcc)
      · rcases Finset.mem_insert.mp hq with hq2 | hq2
        · exact (artFileName_inj hde hdext (congrArg Prod.snd hq2)).2
        · exact absurd hq2 (hfreshA e he)
  obtain ⟨hdel1, hdel2⟩ := delete_file_of_unique env.fileId
    (extOrEmpty (secure_filename env.filename)) (upload_file env fs).2 hextU hinA honly
  have hTneA : ((SDir.thumbs, thumbFileName env.fileId
      (extOrEmpty (secure_filename env.filename))) : FPath) ≠
      (SDir.chat, artFileName env.fileId (extOrEmpty (secure_filename env.filename))) :=
    fun hcc => SDir.noConfusion (congrArg Prod.fst hcc)
  have hfinal : (delete_file env.fileId (upload_file env fs).2).2.files = fs.files := by
    rw [hdel2]
    rcases hfiles with hf | hf <;> rw [hf]
    · rw [Finset.erase_insert (hfreshA _ hextU),
        Finset.erase_eq_of_not_mem (hfreshT _ hextU)]
    · rw [Finset.erase_insert_of_ne hTneA,
        Finset.erase_insert (hfreshA _ hextU),
        Finset.erase_insert (hfreshT _ hextU)]
  refine ⟨delete_deleted_iff, ?_, ?_, hdel1, ?_, ?_, ?_⟩
  · simp [upload_file, h1', h2, h3', hlt]
  · simp [upload_file, h1', h2, h3', hlt]
  · rw [hfinal]
    exact hfreshA _ hextU
  · rw [hfinal]
    exact hfreshT _ hextU
  · refine delete_notFound_of_fresh env.fileId _ ?_
    intro e he
    rw [hfinal]
    exact hfreshA e he

/-- Witness for C5: uploading photo.jpg under a fresh identifier, deleting
it, and deleting again. -/
theorem c5_upload_delete_roundtrip_witness :
    (upload_file uEnvW fsEmpty).1.success = true ∧
    (delete_file uEnvW.fileId (upload_file uEnvW fsEmpty).2).1 =
      DeleteOutcome.deleted ∧
    (delete_file uEnvW.fileId
        (delete_file uEnvW.fileId (upload_file uEnvW fsEmpty).2).2).1 =
      DeleteOutcome.notFound := by
  have H := c5_upload_delete_roundtrip uEnvW fsEmpty (by decide) (by decide)
    (by decide) (by decide) (by decide) (by decide) (by decide)
  exact ⟨H.2.1, H.2.2.2.1, H.2.2.2.2.2.2⟩

/-- C6: when the image capability is unavailable or raises a fault, an
image upload still succeeds with status 200, the returned record has no
thumbnail url, and the persisted original is still on storage. -/
theorem c6_thumbnail_failure_nonfatal (env : UEnv) (fs : FS)
    (h1 : env.hasFile = true) (h2 : env.filename ≠ [])
    (h3 : allowed_file env.filename ALLOWED_UPLOAD_EXTENSIONS = true)
    (h4 : env.fileSize ≤ MAX_FILE_SIZE)
    (himg : get_file_type (secure_filename env.filename) = ("image".data))
    (hpil : env.pil = PilAvail.unavailable ∨ env.pil = PilAvail.fault) :
    (upload_file env fs).1.success = true ∧
    (upload_file env fs).1.status = 200 ∧
    Option.map FileRec.thumbnailURL (upload_file env fs).1.file = some none ∧
    (SDir.chat, artFileName env.fileId (extOrEmpty (secure_filename env.filename))) ∈
      (upload_file env fs).2.files := by
  have h1' : ¬ env.hasFile = false := by simp [h1]
  have h3' : ¬ allowed_file env.filename ALLOWED_UPLOAD_EXTENSIONS = false := by
    simp [h3]
  have hlt : ¬ MAX_FILE_SIZE < env.fileSize := not_lt.mpr h4
  rcases hpil with hp | hp <;>
    exact ⟨by simp [upload_file, create_thumbnail, h1', h2, h3', hlt, hp, himg],
      by simp [upload_file, create_thumbnail, h1', h2, h3', hlt, hp, himg],
      by simp [upload_file, create_thumbnail, h1', h2, h3', hlt, hp, himg],
      by simp [upload_file, create_thumbnail, h1', h2, h3', hlt, hp, himg,
        Finset.mem_insert_self]⟩

/-- Witness for C6 at a concrete png upload with the image capability
missing. -/
theorem c6_thumbnail_failure_nonfatal_witness :
    (upload_file uEnvNoThumb fsEmpty).1.success = true ∧
    Option.map FileRec.thumbnailURL (upload_file uEnvNoThumb fsEmpty).1.file =
      some none := by
  have H := c6_thumbnail_failure_nonfatal uEnvNoThumb fsEmpty (by decide)
    (by decide) (by decide) (by decide) (by decide) (Or.inl (by decide))
  exact ⟨H.1, H.2.2.1⟩

/-- C7 counterexample: a grayscale source image (mode L) is not in mode
RGB, yet the thumbnail pipeline does not convert it to RGB, because the
conversion applies only to the modes RGBA and P. -/
theorem c7_counterexample :
    ("L".data) ≠ ("RGB".data) ∧
    (thumbProcessed ("L".data)).mode ≠ ("RGB".data) := by decide

/-- C7 amended: the thumbnail pipeline converts exactly the modes RGBA and
P to RGB before resizing and passes every other colour mode through
unchanged; the resize call receives a 200 by 200 bounding box (fitting the
box with preserved aspect ratio is the image capability contract) and the
save uses quality 85 with size optimization enabled. -/
theorem c7_amended_thumbnail_policy (mode : FName) :
    ((mode = ("RGBA".data) ∨ mode = ("P".data)) →
       (thumbProcessed mode).mode = ("RGB".data)) ∧
    (mode ≠ ("RGBA".data) → mode ≠ ("P".data) →
       (thumbProcessed mode).mode = mode) ∧
    (thumbProcessed mode).boxW = 200 ∧ (thumbProcessed mode).boxH = 200 ∧
    (thumbProcessed mode).quality = 85 ∧ (thumbProcessed mode).optimize = true := by
  refine ⟨?_, ?_, rfl, rfl, rfl, rfl⟩
  · intro h
    simp [thumbProcessed, h]
  · intro hr hp
    simp [thumbProcessed, hr, hp]

/-- Witness for the amended C7 at the modes RGBA and L. -/
theorem c7_amended_thumbnail_policy_witness :
    (thumbProcessed ("RGBA".data)).mode = ("RGB".data) ∧
    (thumbProcessed ("L".data)).mode = ("L".data) :=
  ⟨(c7_amended_thumbnail_policy ("RGBA".data)).1 (Or.inl rfl),
   (c7_amended_thumbnail_policy ("L".data)).2.1 (by decide) (by decide)⟩

/-- C8: pdf text extraction depends only on the first ten pages; every
extracted-text field included in an upload response has length at most
5000; and when the pdf capability is unavailable or raises a fault the
upload still succeeds with the field absent. -/
theorem c8_pdf_extraction_limits (env : UEnv) (fs : FS) (pages : List FName) :
    extract_pdf_text (PdfAvail.ok pages) =
      extract_pdf_text (PdfAvail.ok (pages.take 10)) ∧
    (∀ rec t, (upload_file env fs).1.file = some rec →
       rec.extractedText = some t → t.length ≤ 5000) ∧
    ((env.pdf = PdfAvail.unavailable ∨ env.pdf = PdfAvail.fault) →
       env.hasFile = true → env.filename ≠ [] →
       allowed_file env.filename ALLOWED_UPLOAD_EXTENSIONS = true →
       env.fileSize ≤ MAX_FILE_SIZE →
       (upload_file env fs).1.success = true ∧
       (∀ rec, (upload_file env fs).1.file = some rec →
          rec.extractedText = none)) := by
  refine ⟨?_, ?_, ?_⟩
  · simp [extract_pdf_text, List.take_take]
  · intro rec t hrec ht
    by_cases hc1 : env.hasFile = false
    · simp [upload_file, hc1] at hrec
    · by_cases hc2 : env.filename = []
      · simp [upload_file, hc1, hc2] at hrec
      · by_cases hc3 : allowed_file env.filename ALLOWED_UPLOAD_EXTENSIONS = false
        · simp [upload_file, hc1, hc2, hc3] at hrec
        · by_cases hc4 : MAX_FILE_SIZE < env.fileSize
          · simp [upload_file, hc1, hc2, hc3, hc4] at hrec
          · by_cases hpdf : extOrEmpty (secure_filename env.filename) = ("pdf".data)
            · cases hp : env.pdf with
              | unavailable =>
                simp [upload_file, hc1, hc2, hc3, hc4, hpdf, hp,
                  extract_pdf_text] at hrec
                subst hrec
                simp at ht
              | fault =>
                simp [upload_file, hc1, hc2, hc3, hc4, hpdf, hp,
                  extract_pdf_text] at hrec
                subst hrec
                simp at ht
              | ok pages =>
                simp [upload_file, hc1, hc2, hc3, hc4, hpdf, hp,
                  extract_pdf_text] at hrec
                subst hrec
                simp at ht
                rw [← ht.2, List.length_take]
                exact min_le_left _ _
            · simp [upload_file, hc1, hc2, hc3, hc4, hpdf] at hrec
              subst hrec
              simp at ht
  · intro hp hc1 hc2 hc3 hc4
    have hc1' : ¬ env.hasFile = false := by simp [hc1]
    have hc3' : ¬ allowed_file env.filename ALLOWED_UPLOAD_EXTENSIONS = false := by
      simp [hc3]
    have hlt : ¬ MAX_FILE_SIZE < env.fileSize := not_lt.mpr hc4
    constructor
    · rcases hp with hp | hp <;> simp [upload_file, hc1', hc2, hc3', hlt, hp]
    · intro rec hrec
      rcases hp with hp | hp <;>
        · simp [upload_file, hc1', hc2, hc3', hlt, hp, extract_pdf_text] at hrec
          subst hrec
          simp

/-- Witness for C8 at a concrete pdf upload with the pdf capability
missing, and a concrete page list. -/
theorem c8_pdf_extraction_limits_witness :
    extract_pdf_text (PdfAvail.ok [List.replicate 6000 ('a')]) =
      extract_pdf_text (PdfAvail.ok ([List.replicate 6000 ('a')].take 10)) ∧
    (upload_file uEnvPdf fsEmpty).1.success = true := by
  have H := c8_pdf_extraction_limits uEnvPdf fsEmpty [List.replicate 6000 ('a')]
  exact ⟨H.1, (H.2.2 (Or.inl rfl) (by decide) (by decide) (by decide) (by decide)).1⟩

/-- C9: the filename .jpg is accepted by upload validation, its sanitised
form jpg has no extension, the upload succeeds reporting type unknown and
the generic binary mime type, the artifact is stored under the identifier
followed by a bare dot, and a subsequent delete of the returned identifier
returns NotFound because the extension probe covers only the known
non-empty extensions. -/
theorem c9_dotjpg_edge_case :
    allowed_file (".jpg".data) ALLOWED_UPLOAD_EXTENSIONS = true ∧
    secure_filename (".jpg".data) = ("jpg".data) ∧
    ((secure_filename (".jpg".data)).contains '.') = false ∧
    (upload_file uEnvDotJpg fsEmpty).1.success = true ∧
    Option.map FileRec.ftype (upload_file uEnvDotJpg fsEmpty).1.file =
      some ("unknown".data) ∧
    Option.map FileRec.mimeType (upload_file uEnvDotJpg fsEmpty).1.file =
      some ("application/octet-stream".data) ∧
    (SDir.chat, ("file_ab12cd34ef56.".data)) ∈ (upload_file uEnvDotJpg fsEmpty).2.files ∧
    (delete_file uEnvDotJpg.fileId (upload_file uEnvDotJpg fsEmpty).2).1 =
      DeleteOutcome.notFound := by decide

/-- C10: delete removes at most the artifact and thumbnail paths of the
single first matching extension, leaves every other file and every
directory unchanged, and never deletes an artifact stored under a
different identifier and a known extension. -/
theorem c10_delete_frame (fid : FName) (fs : FS) :
    (delete_file fid fs).2.dirs = fs.dirs ∧
    (delete_file fid fs).2.files ⊆ fs.files ∧
    (∀ p, p ∈ fs.files → p ∉ (delete_file fid fs).2.files →
       ∃ e, firstMatch fid fs ALLOWED_UPLOAD_EXTENSIONS = some e ∧
         (p = (SDir.chat, artFileName fid e) ∨
          p = (SDir.thumbs, thumbFileName fid e))) ∧
    (∀ fid2 e2, fid2 ≠ fid → e2 ∈ ALLOWED_UPLOAD_EXTENSIONS →
       (SDir.chat, artFileName fid2 e2) ∈ fs.files →
       (SDir.chat, artFileName fid2 e2) ∈ (delete_file fid fs).2.files) := by
  cases hf : firstMatch fid fs ALLOWED_UPLOAD_EXTENSIONS with
  | none =>
    have hd : delete_file fid fs = (DeleteOutcome.notFound, fs) := by
      rw [delete_file, deleteProbe_char, hf]
    rw [hd]
    refine ⟨rfl, Finset.Subset.refl _, ?_, ?_⟩
    · intro p hp hnp
      exact absurd hp hnp
    · intro fid2 e2 _ _ hmem
      exact hmem
  | some e =>
    have hd : delete_file fid fs = (DeleteOutcome.deleted, eraseArtifact fid e fs) := by
      rw [delete_file, deleteProbe_char, hf]
    rw [hd]
    refine ⟨eraseArtifact_dirs fid e fs, ?_, ?_, ?_⟩
    · intro p hp
      exact ((mem_eraseArtifact fid e fs p).mp hp).1
    · intro p hp hnp
      refine ⟨e, rfl, ?_⟩
      by_contra hcon
      push_neg at hcon
      exact hnp ((mem_eraseArtifact fid e fs p).mpr ⟨hp, hcon.1, hcon.2⟩)
    · intro fid2 e2 hne he2 hmem
      have hdot2 : '.' ∉ e2 := noDot_upload_exts e2 he2
      have hdot : '.' ∉ e := noDot_upload_exts e (firstMatch_mem hf).1
      refine (mem_eraseArtifact fid e fs _).mpr ⟨hmem, ?_, ?_⟩
      · intro hcon
        exact hne (artFileName_inj hdot2 hdot (congrArg Prod.snd hcon)).1
      · intro hcon
        exact SDir.noConfusion (congrArg Prod.fst hcon)

/-- Witness for C10: deleting an absent identifier leaves the artifact of
another identifier in place. -/
theorem c10_delete_frame_witness :
    (SDir.chat, artFileName ("file_y".data) ("jpg".data)) ∈
      (delete_file ("file_x".data) fsOther).2.files :=
  (c10_delete_frame ("file_x".data) fsOther).2.2.2 ("file_y".data) ("jpg".data)
    (by decide) (by decide) (by decide)

end ChatMedia
